import Mathlib

/-!
Verification of the ingestion/normalization core and storage-query layer of the
personal-fitness-diary pipeline.

The Lean definitions below are a shallow embedding of the Python source:

* `src/ingest/heart_rate.py` — `HeartRateIngestor` (batched hourly aggregation)
  and `RestingHeartRateIngestor`;
* `src/ingest/steps.py` — `StepsIngestor.transform`;
* `src/ingest/sleep.py` — `SleepIngestor._process_session`;
* `src/ingest/zone_minutes.py` — `ZoneMinutesIngestor.transform`;
* `src/ingest/activities.py` — `get_zone_minutes`;
* `src/ingest/base.py` — `BaseIngestor.get_files` / `load_all_files`;
* `src/storage/duckdb_manager.py` — `DuckDBManager.get_date_range` and the
  per-family fetch methods.

Timestamps ("MM/DD/YY HH:MM:SS") are embedded as seconds-since-epoch
naturals; flooring a timestamp to its hour (`dt.floor("h")`) is division by
3600 and extracting its calendar date (`dt.date`) is division by 86400.
Fallible JSON field access is embedded with `Option`; a Python method that can
raise to its caller is embedded with `Except Unit`.
-/

namespace FitnessDiary

/-! ## Heart-rate hourly ingestion (`src/ingest/heart_rate.py`) -/

/-- One raw heart-rate reading.  `dateTime` is the parsed timestamp in
seconds; `value` is the bpm extracted from the nested value dict
(`x.get("bpm") if isinstance(x, dict) else None`, then `astype(int)`):
`none` when the nested dict is missing or has no bpm, in which case
`dropna` discards the row. -/
structure HrRec where
  dateTime : Nat
  value : Option Int
deriving DecidableEq, Repr

/-- `df["hour"] = df["datetime"].dt.floor("h")`. -/
def hourOf (r : HrRec) : Nat := r.dateTime / 3600

/-- One partial-aggregate row of `_transform_batch`: per-hour sum, count,
min and max of bpm. -/
structure HourStats where
  bpm_sum : Int
  bpm_count : Nat
  min_bpm : Int
  max_bpm : Int
deriving DecidableEq, Repr

/-- Fold one valid bpm reading into the running per-hour statistics
(the effect of one row on `groupby("hour").agg(sum, count, min, max)`). -/
def addReading (acc : Option HourStats) (b : Int) : Option HourStats :=
  match acc with
  | none => some ⟨b, 1, b, b⟩
  | some s => some ⟨s.bpm_sum + b, s.bpm_count + 1, min s.min_bpm b, max s.max_bpm b⟩

/-- The contribution of one record to hour `h`'s statistics: a record with a
valid bpm falling in hour `h` is folded in, any other record is ignored
(rows with `value = none` are removed by `dropna(subset=["bpm"])`). -/
def hrStep (h : Nat) (acc : Option HourStats) (r : HrRec) : Option HourStats :=
  match r.value with
  | some b => if hourOf r = h then addReading acc b else acc
  | none => acc

/-- `HeartRateIngestor._transform_batch`, viewed per hour: the partial
aggregate that the batch `rs` contributes to hour `h` (`none` when the batch
has no valid reading in that hour, i.e. no row for `h` in the batch's
output). -/
def transformBatch (rs : List HrRec) (h : Nat) : Option HourStats :=
  rs.foldl (hrStep h) none

/-- Merging two partial rows for the same hour, as done by
`_final_aggregate`'s `groupby("hour").agg(sum of sums, sum of counts,
min of mins, max of maxes)`. -/
def mergeStats : Option HourStats → Option HourStats → Option HourStats
  | none, t => t
  | some s, none => some s
  | some s, some t =>
      some ⟨s.bpm_sum + t.bpm_sum, s.bpm_count + t.bpm_count,
            min s.min_bpm t.min_bpm, max s.max_bpm t.max_bpm⟩

/-- One row of the final `HeartRateHourly` table. -/
structure FinalRow where
  avg_bpm : ℚ
  min_bpm : Int
  max_bpm : Int
  reading_count : Nat
deriving DecidableEq, Repr

/-- `Series.round(1)`: round to one decimal place. -/
def round1 (q : ℚ) : ℚ := (round (q * 10) : ℤ) / 10

/-- The tail of `HeartRateIngestor._final_aggregate`: compute
`avg_bpm = (bpm_sum / bpm_count).round(1)` and `reading_count = bpm_count`
for an hour's merged statistics. -/
def finalize : Option HourStats → Option FinalRow
  | none => none
  | some s => some ⟨round1 ((s.bpm_sum : ℚ) / (s.bpm_count : ℚ)),
                    s.min_bpm, s.max_bpm, s.bpm_count⟩

/-- `HeartRateIngestor.ingest`, viewed per hour.  `part` is the batch
partition of the input files (each file already parsed into its record
list); each batch's files are concatenated (`batch_data.extend(data)`),
turned into partial aggregates by `_transform_batch`, the partial rows of
all batches are concatenated and merged per hour, and `_final_aggregate`
computes the final row. -/
def ingestHourly (part : List (List (List HrRec))) (h : Nat) : Option FinalRow :=
  finalize ((part.map (fun bf => transformBatch bf.flatten)).foldl
    (fun acc p => mergeStats acc (p h)) none)

/-- The hypothetical single-pass computation over the full record set:
one batch holding every file, i.e. `_final_aggregate ∘ _transform_batch`
on the concatenation of all records. -/
def singlePassHourly (files : List (List HrRec)) (h : Nat) : Option FinalRow :=
  finalize (transformBatch files.flatten h)

lemma mergeStats_none_right (s : Option HourStats) : mergeStats s none = s := by
  cases s <;> rfl

lemma mergeStats_assoc (a b c : Option HourStats) :
    mergeStats (mergeStats a b) c = mergeStats a (mergeStats b c) := by
  cases a <;> cases b <;> cases c <;>
    simp [mergeStats, add_assoc, min_assoc, max_assoc]

lemma addReading_mergeStats (a t : Option HourStats) (b : Int) :
    addReading (mergeStats a t) b = mergeStats a (addReading t b) := by
  cases a <;> cases t <;>
    simp [mergeStats, addReading, add_assoc, min_assoc, max_assoc]

/-- One fold step from an arbitrary accumulator equals merging the
accumulator with the step from scratch. -/
lemma hrStep_merge (h : Nat) (acc : Option HourStats) (r : HrRec) :
    hrStep h acc r = mergeStats acc (hrStep h none r) := by
  rcases r with ⟨t, _ | b⟩
  · simp [hrStep, mergeStats_none_right]
  · by_cases hh : hourOf ⟨t, some b⟩ = h
    · rcases acc with _ | s <;> simp [hrStep, hh, addReading, mergeStats]
    · simp [hrStep, hh, mergeStats_none_right]

/-- Folding records starting from an arbitrary accumulator equals merging the
accumulator with the fold from scratch. -/
lemma transformBatch_from_acc (rs : List HrRec) (h : Nat) (acc : Option HourStats) :
    rs.foldl (hrStep h) acc = mergeStats acc (transformBatch rs h) := by
  induction rs generalizing acc with
  | nil => simp [transformBatch, mergeStats_none_right]
  | cons r rs ih =>
      show List.foldl (hrStep h) (hrStep h acc r) rs =
        mergeStats acc (List.foldl (hrStep h) (hrStep h none r) rs)
      rw [ih, ih (hrStep h none r), ← mergeStats_assoc, ← hrStep_merge]

/-- `_transform_batch` is a homomorphism from record-list concatenation to
per-hour merging of partial aggregates. -/
lemma transformBatch_append (xs ys : List HrRec) (h : Nat) :
    transformBatch (xs ++ ys) h = mergeStats (transformBatch xs h) (transformBatch ys h) := by
  simp only [transformBatch, List.foldl_append]
  exact transformBatch_from_acc ys h _

/-- Merging the per-batch partial aggregates of a list of batches equals the
aggregate of the concatenation of all the batches' records. -/
lemma mergeBatches_eq (h : Nat) (bs : List (List HrRec)) (acc : Option HourStats) :
    bs.foldl (fun acc b => mergeStats acc (transformBatch b h)) acc =
      mergeStats acc (transformBatch bs.flatten h) := by
  induction bs generalizing acc with
  | nil => simp [transformBatch, mergeStats_none_right]
  | cons b bs ih =>
      simp only [List.foldl_cons, List.flatten_cons, ih, transformBatch_append,
        mergeStats_assoc]

lemma flatten_map_flatten (l : List (List (List HrRec))) :
    (l.map List.flatten).flatten = l.flatten.flatten := by
  induction l with
  | nil => rfl
  | cons b bs ih => simp [ih]

lemma flatten_map_singleton (files : List (List HrRec)) :
    (files.map (fun f => [f])).flatten = files := by
  induction files with
  | nil => rfl
  | cons f fs ih => simp [ih]

lemma ingestAux (h : Nat) (part : List (List (List HrRec))) (acc : Option HourStats) :
    (part.map (fun bf => transformBatch bf.flatten)).foldl
        (fun acc p => mergeStats acc (p h)) acc =
      mergeStats acc (transformBatch part.flatten.flatten h) := by
  induction part generalizing acc with
  | nil => simp [transformBatch, mergeStats_none_right]
  | cons b bs ih =>
      simp only [List.map_cons, List.foldl_cons, List.flatten_cons, ih,
        List.flatten_append, transformBatch_append, mergeStats_assoc]

/-- Batched ingestion of any batch partition equals the single-pass
computation over the concatenation of all its files. -/
lemma ingestHourly_eq_singlePass (part : List (List (List HrRec))) (h : Nat) :
    ingestHourly part h = singlePassHourly part.flatten h := by
  unfold ingestHourly singlePassHourly
  rw [ingestAux]
  rfl

/-! ## Invariant of the per-hour statistics (for the final-table invariant) -/

/-- The statistics of a non-empty group of readings: at least one reading,
and the sum bounded between `min * count` and `max * count`. -/
def StatsInv (s : HourStats) : Prop :=
  1 ≤ s.bpm_count ∧ s.min_bpm * (s.bpm_count : ℤ) ≤ s.bpm_sum ∧
    s.bpm_sum ≤ s.max_bpm * (s.bpm_count : ℤ)

/-- `StatsInv` holds of every materialized (`some`) per-hour aggregate. -/
def OptStatsInv (o : Option HourStats) : Prop :=
  ∀ s, o = some s → StatsInv s

lemma optStatsInv_none : OptStatsInv none := by
  intro s hs
  cases hs

lemma addReading_inv (acc : Option HourStats) (b : Int) (hacc : OptStatsInv acc) :
    OptStatsInv (addReading acc b) := by
  rcases acc with _ | s
  · intro t ht
    cases ht
    refine ⟨le_refl 1, ?_, ?_⟩ <;> simp
  · intro t ht
    cases ht
    obtain ⟨h1, h2, h3⟩ := hacc s rfl
    have hc : (0 : ℤ) ≤ (s.bpm_count : ℤ) := Int.ofNat_nonneg _
    have m1 : min s.min_bpm b * (s.bpm_count : ℤ) ≤ s.min_bpm * (s.bpm_count : ℤ) :=
      mul_le_mul_of_nonneg_right (min_le_left _ _) hc
    have m2 : s.max_bpm * (s.bpm_count : ℤ) ≤ max s.max_bpm b * (s.bpm_count : ℤ) :=
      mul_le_mul_of_nonneg_right (le_max_left _ _) hc
    refine ⟨Nat.le_succ_of_le h1, ?_, ?_⟩
    · have := min_le_right s.min_bpm b
      push_cast
      nlinarith
    · have := le_max_right s.max_bpm b
      push_cast
      nlinarith

lemma hrStep_inv (h : Nat) (acc : Option HourStats) (r : HrRec)
    (hacc : OptStatsInv acc) : OptStatsInv (hrStep h acc r) := by
  rcases r with ⟨t, _ | b⟩
  · exact hacc
  · by_cases hh : hourOf ⟨t, some b⟩ = h
    · simpa [hrStep, hh] using addReading_inv acc b hacc
    · simpa [hrStep, hh] using hacc

lemma transformBatch_inv (rs : List HrRec) (h : Nat) :
    OptStatsInv (transformBatch rs h) := by
  suffices H : ∀ acc, OptStatsInv acc → OptStatsInv (rs.foldl (hrStep h) acc) from
    H none optStatsInv_none
  induction rs with
  | nil => exact fun acc hacc => hacc
  | cons r rs ih =>
      intro acc hacc
      exact ih _ (hrStep_inv h acc r hacc)

/-- `Series.round(1)` is monotone. -/
lemma round1_mono {a b : ℚ} (hab : a ≤ b) : round1 a ≤ round1 b := by
  unfold round1
  have h10 : round (a * 10) ≤ round (b * 10) := by
    rw [round_eq, round_eq]
    exact Int.floor_mono (by linarith)
  have h10' : ((round (a * 10) : ℤ) : ℚ) ≤ ((round (b * 10) : ℤ) : ℚ) :=
    Int.cast_le.mpr h10
  linarith

/-- `Series.round(1)` fixes integers. -/
lemma round1_intCast (n : ℤ) : round1 (n : ℚ) = (n : ℚ) := by
  unfold round1
  have h : ((n : ℚ) * 10) = ((n * 10 : ℤ) : ℚ) := by push_cast; ring
  rw [h, round_intCast]
  push_cast
  ring

/-- C1: for every heart-rate input record set and every batch partitioning of
its files, the batched ingestion (per-batch partial aggregation of bpm_sum,
bpm_count, min_bpm, max_bpm per hour, followed by re-aggregation summing the
sums and counts, taking min of mins and max of maxes, and computing
avg_bpm = bpm_sum / bpm_count rounded to 1 decimal) produces per-hour
avg_bpm, min_bpm, max_bpm and reading_count identical to the single-pass
computation over the full record set; in particular batch size 1 and batch
size = file-count give identical results. -/
theorem heart_rate_batch_invariance
    (files : List (List HrRec)) (part : List (List (List HrRec)))
    (hpart : part.flatten = files) (h : Nat) :
    ingestHourly part h = singlePassHourly files h ∧
    ingestHourly (files.map (fun f => [f])) h = ingestHourly [files] h := by
  constructor
  · rw [ingestHourly_eq_singlePass, hpart]
  · rw [ingestHourly_eq_singlePass, ingestHourly_eq_singlePass,
      flatten_map_singleton]
    have e2 : ([files] : List (List (List HrRec))).flatten = files := by simp
    rw [e2]

/-- Witness for C1: two one-record files, partitioned one file per batch,
agree with the single pass over both files. -/
theorem heart_rate_batch_invariance_witness :
    ingestHourly [[[⟨0, some 60⟩]], [[⟨60, some 70⟩]]] 0 =
      singlePassHourly [[⟨0, some 60⟩], [⟨60, some 70⟩]] 0 ∧
    ingestHourly ([[⟨0, some 60⟩], [⟨60, some 70⟩]].map (fun f => [f])) 0 =
      ingestHourly [[[⟨0, some 60⟩], [⟨60, some 70⟩]]] 0 :=
  heart_rate_batch_invariance [[⟨0, some 60⟩], [⟨60, some 70⟩]]
    [[[⟨0, some 60⟩]], [[⟨60, some 70⟩]]] rfl 0

/-- C10: every row of the final HeartRateHourly table satisfies
min_bpm ≤ avg_bpm ≤ max_bpm and reading_count ≥ 1 (no hour row is emitted
with zero readings, so the avg_bpm division is never by zero). -/
theorem heart_rate_hourly_invariant
    (part : List (List (List HrRec))) (h : Nat) (row : FinalRow)
    (hrow : ingestHourly part h = some row) :
    (row.min_bpm : ℚ) ≤ row.avg_bpm ∧ row.avg_bpm ≤ (row.max_bpm : ℚ) ∧
      1 ≤ row.reading_count := by
  rw [ingestHourly_eq_singlePass] at hrow
  unfold singlePassHourly at hrow
  rcases hs : transformBatch part.flatten.flatten h with _ | s
  · rw [hs] at hrow
    exact absurd hrow (by simp [finalize])
  · rw [hs] at hrow
    obtain ⟨h1, h2, h3⟩ := transformBatch_inv part.flatten.flatten h s hs
    simp only [finalize, Option.some_inj] at hrow
    subst hrow
    have hcq : (0 : ℚ) < (s.bpm_count : ℚ) :=
      Nat.cast_pos.mpr (Nat.lt_of_lt_of_le Nat.zero_lt_one h1)
    have hlow : (s.min_bpm : ℚ) ≤ (s.bpm_sum : ℚ) / (s.bpm_count : ℚ) := by
      rw [le_div_iff₀ hcq]
      exact_mod_cast h2
    have hhigh : (s.bpm_sum : ℚ) / (s.bpm_count : ℚ) ≤ (s.max_bpm : ℚ) := by
      rw [div_le_iff₀ hcq]
      exact_mod_cast h3
    have hl := round1_mono hlow
    have hh := round1_mono hhigh
    rw [round1_intCast] at hl hh
    exact ⟨hl, hh, h1⟩

/-! ## Storage query service (`src/storage/duckdb_manager.py`) -/

/-- The columnar store as seen through the DuckDB views created by
`_create_views`: for each family, `none` when the family's parquet file does
not exist (no view is created, and any query naming that view raises a
catalog error), and `some col` when it exists, where `col` is the view's
primary date/time column (`date`, or `hour` for heart rate), one entry per
row, encoded as an integer. -/
structure Store where
  steps_daily : Option (List Int)
  heart_rate_hourly : Option (List Int)
  resting_heart_rate : Option (List Int)
  sleep_sessions : Option (List Int)
  zone_minutes_daily : Option (List Int)
  activities : Option (List Int)
deriving DecidableEq, Repr

/-- `SELECT date FROM v`: reading a view's primary column raises when the
view was never created (absent parquet file). -/
def selectView (v : Option (List Int)) : Except Unit (List Int) :=
  match v with
  | none => Except.error ()
  | some col => Except.ok col

/-- The body of `DuckDBManager.get_date_range`: `MIN(date), MAX(date)` over
a `UNION ALL` of the `date` columns of exactly the five views named in the
SQL text — `steps_daily`, `resting_heart_rate`, `sleep_sessions`,
`zone_minutes_daily`, `activities` (`heart_rate_hourly` is not referenced).
The query raises when any referenced view does not exist; `MIN`/`MAX` of an
empty union are `NULL` (`none`). -/
def dateRangeQuery (s : Store) : Except Unit (Option Int × Option Int) := do
  let a ← selectView s.steps_daily
  let b ← selectView s.resting_heart_rate
  let c ← selectView s.sleep_sessions
  let d ← selectView s.zone_minutes_daily
  let e ← selectView s.activities
  let u := a ++ b ++ c ++ d ++ e
  return (u.min?, u.max?)

/-- `DuckDBManager.get_date_range`: run the query inside `try/except`,
returning the `(None, None)` sentinel when it raises. -/
def get_date_range (s : Store) : Option Int × Option Int :=
  match dateRangeQuery s with
  | Except.ok p => p
  | Except.error _ => (none, none)

/-- The shared shape of the six per-family fetch methods:
`SELECT * FROM view [WHERE key >= start] [AND key <= end] ORDER BY key`,
restricted to the primary key column.  There is no `try/except` in these
methods: when the view does not exist the query raises to the caller. -/
def fetchView (v : Option (List Int)) (start_date end_date : Option Int) :
    Except Unit (List Int) :=
  match v with
  | none => Except.error ()
  | some col =>
      Except.ok ((col.filter (fun d =>
        (match start_date with | none => true | some x => decide (x ≤ d)) &&
        (match end_date with | none => true | some y => decide (d ≤ y)))).insertionSort
          (· ≤ ·))

/-- `DuckDBManager.get_steps_daily`. -/
def get_steps_daily (s : Store) (start_date end_date : Option Int) :
    Except Unit (List Int) :=
  fetchView s.steps_daily start_date end_date

/-- `DuckDBManager.get_heart_rate_hourly`. -/
def get_heart_rate_hourly (s : Store) (start_date end_date : Option Int) :
    Except Unit (List Int) :=
  fetchView s.heart_rate_hourly start_date end_date

/-- `DuckDBManager.get_resting_heart_rate`. -/
def get_resting_heart_rate (s : Store) (start_date end_date : Option Int) :
    Except Unit (List Int) :=
  fetchView s.resting_heart_rate start_date end_date

/-- `DuckDBManager.get_sleep_sessions`. -/
def get_sleep_sessions (s : Store) (start_date end_date : Option Int) :
    Except Unit (List Int) :=
  fetchView s.sleep_sessions start_date end_date

/-- `DuckDBManager.get_zone_minutes_daily`. -/
def get_zone_minutes_daily (s : Store) (start_date end_date : Option Int) :
    Except Unit (List Int) :=
  fetchView s.zone_minutes_daily start_date end_date

/-- `DuckDBManager.get_activities`. -/
def get_activities (s : Store) (start_date end_date : Option Int) :
    Except Unit (List Int) :=
  fetchView s.activities start_date end_date

/-- Witness for C10: a single batch with two readings in hour 0 yields a row
with min 60 ≤ avg 65.5 ≤ max 71 and reading_count 2. -/
theorem heart_rate_hourly_invariant_witness :
    ((FinalRow.mk (131/2) 60 71 2).min_bpm : ℚ) ≤ (FinalRow.mk (131/2) 60 71 2).avg_bpm ∧
    (FinalRow.mk (131/2) 60 71 2).avg_bpm ≤ ((FinalRow.mk (131/2) 60 71 2).max_bpm : ℚ) ∧
    1 ≤ (FinalRow.mk (131/2) 60 71 2).reading_count :=
  heart_rate_hourly_invariant [[[⟨0, some 60⟩, ⟨10, some 71⟩]]] 0
    ⟨131/2, 60, 71, 2⟩ (by
      unfold ingestHourly
      have hfold : ([[[(⟨0, some 60⟩ : HrRec), ⟨10, some 71⟩]]].map
          (fun bf => transformBatch bf.flatten)).foldl
          (fun acc p => mergeStats acc (p 0)) none = some ⟨131, 2, 60, 71⟩ := by
        decide
      rw [hfold]
      norm_num [finalize, round1, round_eq])

/-- Counterexample to C2 as stated: in a store where every family's file
exists, the five date-bearing families all hold date 5 and heart rate hourly
holds hour 99, the min/max over the union of all six families' primary
columns is (5, 99), but `get_date_range` returns (5, 5): the query unions
only five tables and never reads `heart_rate_hourly`. -/
theorem date_range_counterexample :
    get_date_range ⟨some [5], some [99], some [5], some [5], some [5], some [5]⟩ =
      (some 5, some 5) ∧
    ((([5] ++ [5] ++ [5] ++ [5] ++ [5] ++ [99] : List Int)).min?,
      (([5] ++ [5] ++ [5] ++ [5] ++ [5] ++ [99] : List Int)).max?) =
      (some 5, some 99) ∧
    (some (5 : Int), some (5 : Int)) ≠ (some (5 : Int), some (99 : Int)) := by
  refine ⟨by decide, by decide, by decide⟩

/-- C2 amended: `get_date_range` returns the min and max over the union of
the primary date columns of five of the six families — steps, resting heart
rate, sleep, zone minutes and activities; heart rate hourly is excluded —
provided all five of those views exist, and returns the `(None, None)`
sentinel whenever any of those five files is absent (in particular when the
store has not been initialized); when all five exist but are empty the
min and max are both the null sentinel. -/
theorem date_range_amended (s : Store) :
    get_date_range s =
      match s.steps_daily, s.resting_heart_rate, s.sleep_sessions,
          s.zone_minutes_daily, s.activities with
      | some a, some b, some c, some d, some e =>
          ((a ++ b ++ c ++ d ++ e).min?, (a ++ b ++ c ++ d ++ e).max?)
      | _, _, _, _, _ => (none, none) := by
  rcases s with ⟨sd, hr, rh, sl, zm, ac⟩
  cases sd <;> cases rh <;> cases sl <;> cases zm <;> cases ac <;> rfl

/-- Counterexample to C3 as stated: in the store whose `steps_daily.parquet`
is the only absent file, the steps fetch raises a catalog error to the
caller rather than returning an empty result set. -/
theorem absent_file_fetch_counterexample :
    get_steps_daily ⟨none, some [], some [], some [], some [], some []⟩ none none =
      Except.error () ∧
    Except.error () ≠ (Except.ok ([] : List Int)) := by
  refine ⟨rfl, fun h => by cases h⟩

/-- C3 amended: for every family, a per-family fetch issued when that
family's columnar file does not exist raises an error to the caller (the
view backing the query was never created and the per-family fetch methods
have no error handling); it does not return an empty result set.  The
family does still contribute no bound to the global date range, though by
forcing the sentinel rather than by being skipped. -/
theorem absent_file_fetch_amended (s : Store) (start_date end_date : Option Int) :
    (s.steps_daily = none →
      get_steps_daily s start_date end_date = Except.error ()) ∧
    (s.heart_rate_hourly = none →
      get_heart_rate_hourly s start_date end_date = Except.error ()) ∧
    (s.resting_heart_rate = none →
      get_resting_heart_rate s start_date end_date = Except.error ()) ∧
    (s.sleep_sessions = none →
      get_sleep_sessions s start_date end_date = Except.error ()) ∧
    (s.zone_minutes_daily = none →
      get_zone_minutes_daily s start_date end_date = Except.error ()) ∧
    (s.activities = none →
      get_activities s start_date end_date = Except.error ()) := by
  refine ⟨?_, ?_, ?_, ?_, ?_, ?_⟩ <;>
    · intro hnone
      simp [get_steps_daily, get_heart_rate_hourly, get_resting_heart_rate,
        get_sleep_sessions, get_zone_minutes_daily, get_activities,
        fetchView, hnone]

/-- Witness for the amended C3: the all-absent store makes every fetch
raise. -/
theorem absent_file_fetch_amended_witness :
    get_steps_daily ⟨none, none, none, none, none, none⟩ none none =
      Except.error () ∧
    get_heart_rate_hourly ⟨none, none, none, none, none, none⟩ none none =
      Except.error () := by
  have h := absent_file_fetch_amended ⟨none, none, none, none, none, none⟩
    none none
  exact ⟨h.1 rfl, h.2.1 rfl⟩

/-! ## Record loader (`src/ingest/base.py`) -/

/-- The outcome of `load_json_file` on one matching file: a parsed record
list (records are opaque here — naturals); a `json.JSONDecodeError` or
`IOError`, the only two exception types the `except` clause of
`load_all_files` catches; or any other exception — e.g. a
`UnicodeDecodeError` from a malformed-encoding file, which subclasses
neither caught type — that escapes the `except` clause. -/
inductive FileContent where
  | parsed (records : List Nat)
  | caughtError
  | uncaughtError
deriving DecidableEq, Repr

/-- One candidate input file: its name and its load outcome.  A filename is
represented by its rank in the lexicographic filename order (a natural), so
that sorting by name is sorting by this key. -/
structure SrcFile where
  name : Nat
  content : FileContent
deriving DecidableEq, Repr

/-- The records a file contributes when it parses (`none` otherwise). -/
def recordsOf : FileContent → Option (List Nat)
  | FileContent.parsed records => some records
  | FileContent.caughtError => none
  | FileContent.uncaughtError => none

/-- `BaseIngestor.get_files`: `sorted(self.data_path.glob(self.file_pattern))`
— the matching files in filename-sorted order. -/
def get_files (dir : List SrcFile) : List SrcFile :=
  dir.insertionSort (fun a b => a.name ≤ b.name)

/-- One iteration of the `for` loop of `load_all_files`: extend `all_data`
with the file's parsed records; on `json.JSONDecodeError`/`IOError` print a
warning and continue with `all_data` unchanged; any other exception
propagates out of the loop. -/
def loadStep (all_data : List Nat) (f : SrcFile) : Except Unit (List Nat) :=
  match f.content with
  | FileContent.parsed records => Except.ok (all_data ++ records)
  | FileContent.caughtError => Except.ok all_data
  | FileContent.uncaughtError => Except.error ()

/-- `BaseIngestor.load_all_files`: visit the sorted files in order,
accumulating records; a caught per-file failure is skipped, while an
uncaught exception aborts the whole call. -/
def load_all_files (dir : List SrcFile) : Except Unit (List Nat) :=
  (get_files dir).foldlM loadStep []

lemma recordsOf_parsed (records : List Nat) :
    recordsOf (FileContent.parsed records) = some records := rfl

lemma recordsOf_caught : recordsOf FileContent.caughtError = none := rfl

lemma recordsOf_uncaught : recordsOf FileContent.uncaughtError = none := rfl

lemma load_all_files_aux (fs : List SrcFile) (acc : List Nat)
    (hok : ∀ f ∈ fs, f.content ≠ FileContent.uncaughtError) :
    fs.foldlM loadStep acc =
      Except.ok (acc ++ (fs.filterMap (fun f => recordsOf f.content)).flatten) := by
  induction fs generalizing acc with
  | nil =>
      show pure acc = Except.ok (acc ++ ([] : List (List Nat)).flatten)
      rw [List.flatten_nil, List.append_nil]
      rfl
  | cons f fs ih =>
      have hf := hok f (List.mem_cons_self f fs)
      have hfs : ∀ g ∈ fs, g.content ≠ FileContent.uncaughtError :=
        fun g hg => hok g (List.mem_cons_of_mem f hg)
      rcases f with ⟨nm, records | _ | _⟩
      · show fs.foldlM loadStep (acc ++ records) = _
        rw [ih _ hfs]
        simp [recordsOf]
      · show fs.foldlM loadStep acc = _
        rw [ih _ hfs]
        simp [recordsOf]
      · exact absurd rfl hf

lemma load_all_files_abort (fs : List SrcFile) :
    ∀ acc : List Nat, (∃ f ∈ fs, f.content = FileContent.uncaughtError) →
    fs.foldlM loadStep acc = Except.error () := by
  induction fs with
  | nil =>
      intro acc hbad
      rcases hbad with ⟨f, hf, _⟩
      exact absurd hf (List.not_mem_nil f)
  | cons f fs ih =>
      intro acc hbad
      rcases f with ⟨nm, records | _ | _⟩
      · have hfs : ∃ g ∈ fs, g.content = FileContent.uncaughtError := by
          rcases hbad with ⟨g, hg, hgc⟩
          rcases List.mem_cons.mp hg with rfl | hg'
          · cases hgc
          · exact ⟨g, hg', hgc⟩
        show fs.foldlM loadStep (acc ++ records) = Except.error ()
        exact ih _ hfs
      · have hfs : ∃ g ∈ fs, g.content = FileContent.uncaughtError := by
          rcases hbad with ⟨g, hg, hgc⟩
          rcases List.mem_cons.mp hg with rfl | hg'
          · cases hgc
          · exact ⟨g, hg', hgc⟩
        show fs.foldlM loadStep acc = Except.error ()
        exact ih _ hfs
      · rfl

lemma count_over_files (fs : List SrcFile) (r : Nat) :
    ((fs.filterMap (fun f => recordsOf f.content)).flatten).count r =
      (fs.map (fun f => ((recordsOf f.content).getD []).count r)).sum := by
  induction fs with
  | nil => rfl
  | cons f fs ih =>
      rcases f with ⟨nm, records | _ | _⟩
      · simp [recordsOf_parsed, ih, List.count_append]
      · simp [recordsOf_caught, ih]
      · simp [recordsOf_uncaught, ih]

/-- Counterexample to C4 as stated: two files both holding record `7`
produce an output in which `7` occurs twice, not once — the loader
concatenates and never deduplicates; and a file whose load raises an
exception outside the two caught types (e.g. a `UnicodeDecodeError` from
malformed encoding) aborts the whole call instead of being skipped. -/
theorem loader_counterexample :
    load_all_files [⟨0, FileContent.parsed [7]⟩, ⟨1, FileContent.parsed [7]⟩] =
      Except.ok [7, 7] ∧
    ([7, 7] : List Nat).count 7 = 2 ∧
    (2 : Nat) ≠ 1 ∧
    load_all_files [⟨0, FileContent.uncaughtError⟩] = Except.error () := by
  refine ⟨rfl, by decide, by decide, rfl⟩

/-- C4 amended: when no file's load raises outside the two caught types,
the loader returns the concatenation (not deduplicated union — a record
appearing in two files, or twice in one file, occurs with its full
multiplicity) of the parsed records of all matching files, visited in
filename-sorted order, and a file raising `json.JSONDecodeError`/`IOError`
is skipped with a warning and contributes no records; a file whose load
raises any other exception (e.g. a `UnicodeDecodeError` from malformed
encoding) aborts the run. -/
theorem loader_amended (dir : List SrcFile) :
    ((∀ f ∈ dir, f.content ≠ FileContent.uncaughtError) →
      load_all_files dir =
        Except.ok ((get_files dir).filterMap (fun f => recordsOf f.content)).flatten ∧
      ∀ r : Nat,
        (((get_files dir).filterMap (fun f => recordsOf f.content)).flatten).count r =
          ((get_files dir).map
            (fun f => ((recordsOf f.content).getD []).count r)).sum) ∧
    ((∃ f ∈ dir, f.content = FileContent.uncaughtError) →
      load_all_files dir = Except.error ()) ∧
    (get_files dir).Sorted (fun a b => a.name ≤ b.name) := by
  refine ⟨?_, ?_, ?_⟩
  · intro hok
    have hok' : ∀ f ∈ get_files dir, f.content ≠ FileContent.uncaughtError :=
      fun f hf => hok f
        ((List.perm_insertionSort (fun (a b : SrcFile) => a.name ≤ b.name)
          dir).mem_iff.mp hf)
    constructor
    · rw [load_all_files, load_all_files_aux _ [] hok', List.nil_append]
    · exact fun r => count_over_files _ r
  · intro hbad
    rcases hbad with ⟨f, hf, hc⟩
    exact load_all_files_abort _ []
      ⟨f, (List.perm_insertionSort (fun (a b : SrcFile) => a.name ≤ b.name)
        dir).mem_iff.mpr hf, hc⟩
  · haveI : IsTotal SrcFile (fun a b => a.name ≤ b.name) :=
      ⟨fun a b => le_total a.name b.name⟩
    haveI : IsTrans SrcFile (fun a b => a.name ≤ b.name) :=
      ⟨fun a b c hab hbc => le_trans hab hbc⟩
    exact List.sorted_insertionSort _ _

/-- Witness for the amended C4: a directory with one parsing file and one
caught-failure file loads to exactly the parsing file\'s records, and a
directory holding an uncaught-failure file aborts. -/
theorem loader_amended_witness :
    load_all_files [⟨0, FileContent.parsed [7]⟩, ⟨1, FileContent.caughtError⟩] =
      Except.ok [7] ∧
    load_all_files [⟨2, FileContent.uncaughtError⟩] = Except.error () := by
  constructor
  · have h := (loader_amended
      [⟨0, FileContent.parsed [7]⟩, ⟨1, FileContent.caughtError⟩]).1 (by decide)
    rw [h.1]
    have he : ((get_files
        [⟨0, FileContent.parsed [7]⟩, ⟨1, FileContent.caughtError⟩]).filterMap
        (fun f => recordsOf f.content)).flatten = [7] := by decide
    rw [he]
  · exact (loader_amended [⟨2, FileContent.uncaughtError⟩]).2.1
      ⟨⟨2, FileContent.uncaughtError⟩, by decide, rfl⟩

/-! ## Steps transformer (`src/ingest/steps.py`) -/

/-- One raw steps record: parsed timestamp in seconds, and the step value
after `pd.to_numeric(errors="coerce")` — `none` embeds a non-numeric value
(NaN), which `fillna(0).astype(int)` coerces to 0. -/
structure StepsRec where
  dateTime : Nat
  value : Option Int
deriving DecidableEq, Repr

/-- `df["date"] = df["datetime"].dt.date`. -/
def dateOfSteps (r : StepsRec) : Nat := r.dateTime / 86400

/-- `pd.to_numeric(df["value"], errors="coerce").fillna(0).astype(int)`. -/
def stepsOf (r : StepsRec) : Int := r.value.getD 0

/-- One row of the `StepsDaily` table. -/
structure StepsRow where
  date : Nat
  total_steps : Int
  active_minutes : Nat
deriving DecidableEq, Repr

/-- The distinct group keys in ascending order, as produced by a pandas
`groupby` (which sorts its keys) followed by `sort_values`. -/
def sortedDistinct (l : List Nat) : List Nat :=
  l.dedup.insertionSort (· ≤ ·)

/-- `StepsIngestor.transform`: group by date and aggregate
`total_steps = sum(steps)` and `active_minutes = count(steps > 0)`,
one row per distinct date, dates ascending. -/
def stepsTransform (rs : List StepsRec) : List StepsRow :=
  (sortedDistinct (rs.map dateOfSteps)).map (fun d =>
    ⟨d, ((rs.filter (fun r => decide (dateOfSteps r = d))).map stepsOf).sum,
      (rs.filter (fun r => decide (dateOfSteps r = d))).countP
        (fun r => decide (0 < stepsOf r))⟩)

/-- The end-to-end example input of C5: readings 100, 0, 5000 on day 0 and
3000 on day 1. -/
def c5Input : List StepsRec :=
  [⟨0, some 100⟩, ⟨60, some 0⟩, ⟨120, some 5000⟩, ⟨86400, some 3000⟩]

/-- C5: every output row's `total_steps` is the sum of the coerced input
values of its date and `active_minutes` counts that date's readings with a
positive coerced value; and the end-to-end example yields exactly
[(day 0, 5100, 2), (day 1, 3000, 1)]. -/
theorem steps_daily_correct :
    (∀ (rs : List StepsRec) (row : StepsRow), row ∈ stepsTransform rs →
      row.total_steps =
        ((rs.filter (fun r => decide (dateOfSteps r = row.date))).map stepsOf).sum ∧
      row.active_minutes =
        (rs.filter (fun r => decide (dateOfSteps r = row.date))).countP
          (fun r => decide (0 < stepsOf r))) ∧
    stepsTransform c5Input = [⟨0, 5100, 2⟩, ⟨1, 3000, 1⟩] := by
  constructor
  · intro rs row hrow
    obtain ⟨d, _, rfl⟩ := List.mem_map.mp hrow
    exact ⟨rfl, rfl⟩
  · decide

/-- Witness for C5: the first example row satisfies the per-row sums. -/
theorem steps_daily_correct_witness :
    (⟨0, 5100, 2⟩ : StepsRow).total_steps =
      ((c5Input.filter
        (fun r => decide (dateOfSteps r = (⟨0, 5100, 2⟩ : StepsRow).date))).map
          stepsOf).sum ∧
    (⟨0, 5100, 2⟩ : StepsRow).active_minutes =
      (c5Input.filter
        (fun r => decide (dateOfSteps r = (⟨0, 5100, 2⟩ : StepsRow).date))).countP
        (fun r => decide (0 < stepsOf r)) :=
  steps_daily_correct.1 c5Input ⟨0, 5100, 2⟩ (by decide)

/-! ## Sleep transformer (`src/ingest/sleep.py`) -/

/-- One raw sleep session record.  Each field embeds the corresponding
`record.get(...)` access (`none` = key absent); `sleep_type` embeds
`record.get("type")` before its `"classic"` default is applied, and
`summary` embeds `record.get("levels", {}).get("summary", {})` as an
association list from stage name to that stage's `"minutes"` entry (a stage
absent from the list, like a stage whose minutes entry is absent, reads as
the default 0). -/
structure SleepRec where
  logId : Option Int
  dateOfSleep : Option String
  startTime : Option String
  endTime : Option String
  duration : Option Nat
  minutesAsleep : Option Nat
  minutesAwake : Option Nat
  timeInBed : Option Nat
  efficiency : Option Nat
  sleep_type : Option String
  summary : List (String × Nat)
deriving DecidableEq, Repr

/-- `summary.get(stage, {}).get("minutes", 0)`. -/
def stageMinutes (summary : List (String × Nat)) (stage : String) : Nat :=
  (summary.lookup stage).getD 0

/-- One row of the `SleepSession` table, as built by `_process_session`. -/
structure SleepSession where
  log_id : Option Int
  date : Option String
  start_time : Option String
  end_time : Option String
  duration_ms : Nat
  duration_hours : ℚ
  minutes_asleep : Nat
  minutes_awake : Nat
  time_in_bed : Nat
  efficiency : Nat
  sleep_type : String
  wake_minutes : Nat
  light_minutes : Nat
  deep_minutes : Nat
  rem_minutes : Nat
deriving DecidableEq, Repr

/-- `SleepIngestor._process_session`: build the base session from the raw
record (`sleep_type = record.get("type", "classic")`), then extract stage
minutes — the declared wake/light/deep/rem summaries when the type is
`"stages"`, and the classic remap (wake = awake, light = restless + asleep,
deep = rem = 0) otherwise. -/
def processSession (record : SleepRec) : SleepSession :=
  let sleep_type := record.sleep_type.getD "classic"
  { log_id := record.logId
    date := record.dateOfSleep
    start_time := record.startTime
    end_time := record.endTime
    duration_ms := record.duration.getD 0
    duration_hours := (record.duration.getD 0 : ℚ) / 3600000
    minutes_asleep := record.minutesAsleep.getD 0
    minutes_awake := record.minutesAwake.getD 0
    time_in_bed := record.timeInBed.getD 0
    efficiency := record.efficiency.getD 0
    sleep_type := sleep_type
    wake_minutes :=
      if sleep_type = "stages" then stageMinutes record.summary "wake"
      else stageMinutes record.summary "awake"
    light_minutes :=
      if sleep_type = "stages" then stageMinutes record.summary "light"
      else stageMinutes record.summary "restless" + stageMinutes record.summary "asleep"
    deep_minutes :=
      if sleep_type = "stages" then stageMinutes record.summary "deep" else 0
    rem_minutes :=
      if sleep_type = "stages" then stageMinutes record.summary "rem" else 0 }

/-- The classic example record of C6: awake=10, restless=20, asleep=30. -/
def c6Classic : SleepRec :=
  ⟨none, none, none, none, none, none, none, none, none, some "classic",
    [("awake", 10), ("restless", 20), ("asleep", 30)]⟩

/-- C6: a sleep record of declared type "classic" (or with the type absent,
which defaults to "classic") maps to wake = awake minutes,
light = restless + asleep minutes, deep = 0, rem = 0; a "stages" record
keeps its declared wake/light/deep/rem minutes unchanged; and the example
classic record with awake=10, restless=20, asleep=30 yields {10, 50, 0, 0}. -/
theorem sleep_stage_mapping :
    (∀ r : SleepRec, r.sleep_type = none ∨ r.sleep_type = some "classic" →
      (processSession r).wake_minutes = stageMinutes r.summary "awake" ∧
      (processSession r).light_minutes =
        stageMinutes r.summary "restless" + stageMinutes r.summary "asleep" ∧
      (processSession r).deep_minutes = 0 ∧
      (processSession r).rem_minutes = 0) ∧
    (∀ r : SleepRec, r.sleep_type = some "stages" →
      (processSession r).wake_minutes = stageMinutes r.summary "wake" ∧
      (processSession r).light_minutes = stageMinutes r.summary "light" ∧
      (processSession r).deep_minutes = stageMinutes r.summary "deep" ∧
      (processSession r).rem_minutes = stageMinutes r.summary "rem") ∧
    ((processSession c6Classic).wake_minutes = 10 ∧
      (processSession c6Classic).light_minutes = 50 ∧
      (processSession c6Classic).deep_minutes = 0 ∧
      (processSession c6Classic).rem_minutes = 0) := by
  have hne : ("classic" : String) ≠ "stages" := by decide
  refine ⟨?_, ?_, by decide⟩
  · rintro r (h | h) <;> simp [processSession, h, hne]
  · intro r h
    simp [processSession, h]

/-- Witness for C6: the classic example record instantiates the
classic-mapping clause. -/
theorem sleep_stage_mapping_witness :
    (processSession c6Classic).wake_minutes = stageMinutes c6Classic.summary "awake" ∧
    (processSession c6Classic).light_minutes =
      stageMinutes c6Classic.summary "restless" + stageMinutes c6Classic.summary "asleep" ∧
    (processSession c6Classic).deep_minutes = 0 ∧
    (processSession c6Classic).rem_minutes = 0 :=
  sleep_stage_mapping.1 c6Classic (Or.inr rfl)

/-! ## Zone-minutes transformer (`src/ingest/zone_minutes.py`) -/

/-- One raw zone-minutes record: parsed timestamp in seconds and the
`value["valuesInZones"]` mapping as an association list from zone key to
minutes (`none` embeds `x.get("valuesInZones", {})` returning the empty
default; an absent zone key reads as 0). -/
structure ZoneRec where
  dateTime : Nat
  valuesInZones : Option (List (String × Int))
deriving DecidableEq, Repr

/-- `x.get("valuesInZones", {}).get(key, 0)`. -/
def zoneValue (r : ZoneRec) (key : String) : Int :=
  ((r.valuesInZones.getD []).lookup key).getD 0

/-- `df["date"] = pd.to_datetime(df["dateTime"], ...).dt.date`. -/
def dateOfZone (r : ZoneRec) : Nat := r.dateTime / 86400

/-- Per-record `total_active_minutes` = fat burn + cardio + peak, computed
before the group-by. -/
def totalActiveOf (r : ZoneRec) : Int :=
  zoneValue r "IN_DEFAULT_ZONE_1" + zoneValue r "IN_DEFAULT_ZONE_2" +
    zoneValue r "IN_DEFAULT_ZONE_3"

/-- One row of the `ZoneMinutesDaily` table. -/
structure ZoneRow where
  date : Nat
  fat_burn_minutes : Int
  cardio_minutes : Int
  peak_minutes : Int
  out_of_range_minutes : Int
  total_active_minutes : Int
deriving DecidableEq, Repr

/-- `ZoneMinutesIngestor.transform`: extract the four fixed zone keys
(IN_DEFAULT_ZONE_1/2/3 and BELOW_DEFAULT_ZONE_1, absent keys defaulting
to 0) and the per-record total, then `groupby("date")` summing all five
numeric columns, one row per distinct date, dates ascending. -/
def zoneMinutesTransform (rs : List ZoneRec) : List ZoneRow :=
  (sortedDistinct (rs.map dateOfZone)).map (fun d =>
    let g := rs.filter (fun r => decide (dateOfZone r = d))
    ⟨d, (g.map (fun r => zoneValue r "IN_DEFAULT_ZONE_1")).sum,
      (g.map (fun r => zoneValue r "IN_DEFAULT_ZONE_2")).sum,
      (g.map (fun r => zoneValue r "IN_DEFAULT_ZONE_3")).sum,
      (g.map (fun r => zoneValue r "BELOW_DEFAULT_ZONE_1")).sum,
      (g.map totalActiveOf).sum⟩)

lemma sortedDistinct_nodup (l : List Nat) : (sortedDistinct l).Nodup :=
  ((List.perm_insertionSort _ l.dedup).nodup_iff).mpr l.nodup_dedup

lemma mem_sortedDistinct (l : List Nat) (d : Nat) :
    d ∈ sortedDistinct l ↔ d ∈ l := by
  rw [sortedDistinct]
  rw [(List.perm_insertionSort _ l.dedup).mem_iff]
  exact List.mem_dedup

/-- The duplicate-merge example of C7: two records on day 0 with
fat_burn 5 and 7. -/
def c7Input : List ZoneRec :=
  [⟨0, some [("IN_DEFAULT_ZONE_1", 5)]⟩, ⟨60, some [("IN_DEFAULT_ZONE_1", 7)]⟩]

/-- C7: the zone-minutes transformer emits exactly one output row per
distinct input date; each of the five numeric columns of a row is the sum
of the per-record values of its date (absent zone keys defaulting to 0);
and the example pair of same-date records with fat_burn 5 and 7 merges to a
single row with fat_burn_minutes = 12. -/
theorem zone_minutes_daily_correct :
    (∀ rs : List ZoneRec,
      ((zoneMinutesTransform rs).map (fun row => row.date)).Nodup ∧
      (∀ d, d ∈ (zoneMinutesTransform rs).map (fun row => row.date) ↔
        d ∈ rs.map dateOfZone)) ∧
    (∀ (rs : List ZoneRec) (row : ZoneRow), row ∈ zoneMinutesTransform rs →
      row.fat_burn_minutes =
        ((rs.filter (fun r => decide (dateOfZone r = row.date))).map
          (fun r => zoneValue r "IN_DEFAULT_ZONE_1")).sum ∧
      row.cardio_minutes =
        ((rs.filter (fun r => decide (dateOfZone r = row.date))).map
          (fun r => zoneValue r "IN_DEFAULT_ZONE_2")).sum ∧
      row.peak_minutes =
        ((rs.filter (fun r => decide (dateOfZone r = row.date))).map
          (fun r => zoneValue r "IN_DEFAULT_ZONE_3")).sum ∧
      row.out_of_range_minutes =
        ((rs.filter (fun r => decide (dateOfZone r = row.date))).map
          (fun r => zoneValue r "BELOW_DEFAULT_ZONE_1")).sum ∧
      row.total_active_minutes =
        ((rs.filter (fun r => decide (dateOfZone r = row.date))).map
          totalActiveOf).sum) ∧
    zoneMinutesTransform c7Input = [⟨0, 12, 0, 0, 0, 12⟩] := by
  refine ⟨?_, ?_, by decide⟩
  · intro rs
    have hdates : ((zoneMinutesTransform rs).map (fun row => row.date)) =
        sortedDistinct (rs.map dateOfZone) := by
      rw [zoneMinutesTransform, List.map_map]
      exact List.map_id _
    rw [hdates]
    exact ⟨sortedDistinct_nodup _, fun d => mem_sortedDistinct _ d⟩
  · intro rs row hrow
    obtain ⟨d, _, rfl⟩ := List.mem_map.mp hrow
    exact ⟨rfl, rfl, rfl, rfl, rfl⟩

/-- Witness for C7: the merged example row satisfies the per-column sums. -/
theorem zone_minutes_daily_correct_witness :
    (⟨0, 12, 0, 0, 0, 12⟩ : ZoneRow).fat_burn_minutes =
      ((c7Input.filter (fun r => decide (dateOfZone r = 0))).map
        (fun r => zoneValue r "IN_DEFAULT_ZONE_1")).sum ∧
    (⟨0, 12, 0, 0, 0, 12⟩ : ZoneRow).total_active_minutes =
      ((c7Input.filter (fun r => decide (dateOfZone r = 0))).map
        totalActiveOf).sum := by
  have h := zone_minutes_daily_correct.2.1 c7Input ⟨0, 12, 0, 0, 0, 12⟩ (by decide)
  exact ⟨h.1, h.2.2.2.2⟩

/-! ## Resting heart rate transformer (`src/ingest/heart_rate.py`) -/

/-- The nested value object of a resting-heart-rate record: its `"value"`
(the heart rate) and `"error"` entries, each `none` when absent. -/
structure RhrVal where
  value : Option ℚ
  error : Option ℚ
deriving DecidableEq, Repr

/-- One raw resting-heart-rate record: parsed timestamp in seconds and the
nested value object (`none` embeds a non-dict `value`, whose two
extractions both yield `None`). -/
structure RhrRec where
  dateTime : Nat
  value : Option RhrVal
deriving DecidableEq, Repr

/-- `x.get("value") if isinstance(x, dict) else None`. -/
def rhrValueOf (r : RhrRec) : Option ℚ := r.value.bind (fun v => v.value)

/-- `x.get("error") if isinstance(x, dict) else None`. -/
def rhrErrorOf (r : RhrRec) : Option ℚ := r.value.bind (fun v => v.error)

/-- `df["date"] = df["datetime"].dt.date`. -/
def dateOfRhr (r : RhrRec) : Nat := r.dateTime / 86400

/-- `Series.round(2)`: round to two decimal places. -/
def round2 (q : ℚ) : ℚ := (round (q * 100) : ℤ) / 100

/-- One row of the `RestingHeartRate` table (`error` stays `None`/NaN when
the nested error entry is absent). -/
structure RhrRow where
  date : Nat
  resting_hr : ℚ
  error : Option ℚ
deriving DecidableEq, Repr

/-- `RestingHeartRateIngestor.transform`: drop records whose heart-rate
value is missing (`dropna(subset=["resting_hr"])`), round the rate to 1
decimal and the error to 2 decimals, emit one row per surviving record (no
group-by), and sort by date. -/
def restingHrTransform (rs : List RhrRec) : List RhrRow :=
  ((rs.filter (fun r => (rhrValueOf r).isSome)).map (fun r =>
    ⟨dateOfRhr r, round1 ((rhrValueOf r).getD 0), (rhrErrorOf r).map round2⟩)).insertionSort
    (fun a b => a.date ≤ b.date)

/-- C8: same-date resting-heart-rate records are never merged — for every
date, the output row count equals the number of surviving (value-present)
input records of that date — and every output row comes from one surviving
input record, with resting_hr rounded to 1 decimal and error rounded to 2
decimals. -/
theorem resting_heart_rate_no_merge :
    (∀ (rs : List RhrRec) (d : Nat),
      (restingHrTransform rs).countP (fun row => decide (row.date = d)) =
        rs.countP (fun r => decide (dateOfRhr r = d) && (rhrValueOf r).isSome)) ∧
    (∀ (rs : List RhrRec) (row : RhrRow), row ∈ restingHrTransform rs →
      ∃ r ∈ rs, ∃ q, rhrValueOf r = some q ∧
        row = ⟨dateOfRhr r, round1 q, (rhrErrorOf r).map round2⟩) := by
  constructor
  · intro rs d
    rw [restingHrTransform,
      (List.perm_insertionSort (fun (a b : RhrRow) => a.date ≤ b.date) _).countP_eq,
      List.countP_map, List.countP_filter]
    rfl
  · intro rs row hrow
    rw [restingHrTransform,
      (List.perm_insertionSort (fun (a b : RhrRow) => a.date ≤ b.date) _).mem_iff] at hrow
    obtain ⟨r, hrf, rfl⟩ := List.mem_map.mp hrow
    obtain ⟨hrs, hsome⟩ := List.mem_filter.mp hrf
    obtain ⟨q, hq⟩ := Option.isSome_iff_exists.mp (by simpa using hsome)
    exact ⟨r, hrs, q, hq, by rw [hq]; rfl⟩

/-- Witness for C8: two same-date records with present values produce two
rows for that date, and the first row is the image of the first record. -/
theorem resting_heart_rate_no_merge_witness :
    (restingHrTransform [⟨0, some ⟨some 60, some (1/2)⟩⟩, ⟨60, some ⟨some 61, none⟩⟩]).countP
        (fun row => decide (row.date = 0)) =
      ([⟨0, some ⟨some 60, some (1/2)⟩⟩, ⟨60, some ⟨some 61, none⟩⟩] :
        List RhrRec).countP
        (fun r => decide (dateOfRhr r = 0) && (rhrValueOf r).isSome) ∧
    ∃ r ∈ ([⟨0, some ⟨some 60, some (1/2)⟩⟩, ⟨60, some ⟨some 61, none⟩⟩] :
        List RhrRec), ∃ q, rhrValueOf r = some q ∧
      (⟨0, round1 60, some (round2 (1/2))⟩ : RhrRow) =
        ⟨dateOfRhr r, round1 q, (rhrErrorOf r).map round2⟩ := by
  constructor
  · exact resting_heart_rate_no_merge.1
      [⟨0, some ⟨some 60, some (1/2)⟩⟩, ⟨60, some ⟨some 61, none⟩⟩] 0
  · refine resting_heart_rate_no_merge.2
      [⟨0, some ⟨some 60, some (1/2)⟩⟩, ⟨60, some ⟨some 61, none⟩⟩]
      ⟨0, round1 60, some (round2 (1/2))⟩ ?_
    simp [restingHrTransform, rhrValueOf, rhrErrorOf, dateOfRhr,
      List.insertionSort, List.orderedInsert]

/-! ## Activities zone extraction (`src/ingest/activities.py`) -/

/-- One element of a record's `heartRateZones` list: either a dict — with
its `"name"` entry (`none` = key absent) and its `"minutes"` entry
(`none` = key absent, read as the default 0) — or a non-dict element, which
the scan skips. -/
inductive ZoneEntry where
  | dict (name : Option String) (minutes : Option Int)
  | nondict
deriving DecidableEq, Repr

/-- Whether `isinstance(zone, dict) and zone.get("name") == zone_name`. -/
def zoneEntryMatches (e : ZoneEntry) (zone_name : String) : Bool :=
  match e with
  | ZoneEntry.dict nm _ => decide (nm = some zone_name)
  | ZoneEntry.nondict => false

/-- The linear scan of `get_zone_minutes` over the zone list: the first
dict entry whose name equals `zone_name` yields its minutes (0 when its
minutes key is absent); falling off the end yields 0. -/
def scanZones : List ZoneEntry → String → Int
  | [], _ => 0
  | ZoneEntry.dict nm m :: rest, zone_name =>
      if nm = some zone_name then m.getD 0 else scanZones rest zone_name
  | ZoneEntry.nondict :: rest, zone_name => scanZones rest zone_name

/-- `get_zone_minutes(hr_zones, zone_name)` from
`ActivitiesIngestor.transform`: 0 when `hr_zones` is `None` or not a list,
otherwise the linear scan. -/
def get_zone_minutes (hr_zones : Option (List ZoneEntry)) (zone_name : String) : Int :=
  match hr_zones with
  | none => 0
  | some zs => scanZones zs zone_name

/-- C9: extracting a named zone's minutes never raises — it is total — and
returns 0 whenever `heartRateZones` is `None`/not a list (embedded as
`none`) or no entry of the list is a dict carrying the requested name; in
particular a record with `heartRateZones = None` yields
fat_burn = cardio = peak = 0. -/
theorem activities_zone_default :
    (∀ zone_name, get_zone_minutes none zone_name = 0) ∧
    (∀ (zone_name : String) (zs : List ZoneEntry),
      (∀ e ∈ zs, zoneEntryMatches e zone_name = false) →
      get_zone_minutes (some zs) zone_name = 0) ∧
    (get_zone_minutes none "Fat Burn" = 0 ∧ get_zone_minutes none "Cardio" = 0 ∧
      get_zone_minutes none "Peak" = 0) := by
  refine ⟨fun _ => rfl, ?_, rfl, rfl, rfl⟩
  intro zone_name zs hzs
  induction zs with
  | nil => rfl
  | cons e rest ih =>
      have he := hzs e (List.mem_cons_self e rest)
      have hrest := fun e' he' => hzs e' (List.mem_cons_of_mem e he')
      rcases e with ⟨nm, m⟩ | _
      · have hne : ¬ nm = some zone_name := by
          simpa [zoneEntryMatches] using he
        simpa [get_zone_minutes, scanZones, hne] using ih hrest
      · simpa [get_zone_minutes, scanZones] using ih hrest

/-- Witness for C9: a list with a non-dict entry, a nameless dict and a
dict named "Cardio" yields 0 when asked for "Fat Burn". -/
theorem activities_zone_default_witness :
    get_zone_minutes
      (some [ZoneEntry.nondict, ZoneEntry.dict none (some 4),
        ZoneEntry.dict (some "Cardio") (some 9)]) "Fat Burn" = 0 :=
  activities_zone_default.2.1 "Fat Burn"
    [ZoneEntry.nondict, ZoneEntry.dict none (some 4),
      ZoneEntry.dict (some "Cardio") (some 9)] (by decide)

end FitnessDiary
